import Mathlib

/-!
Shallow embedding of `src/api_yamdb/api/views.py` (a Django REST Framework
views module for a content-rating platform) and proofs of the specification
claims about it.

The module under verification contains view classes only; the ORM, the
serializers and Django's token generator are reached through calls.  Library
semantics (Django ORM `Avg`, `get_object_or_404`, DRF `is_valid` /
`serializer.save`, Python truthiness and operator semantics) are embedded
faithfully below; repository code that is not part of the source tree
(serializer internals) is abstracted as explicit parameters or, where a claim
needs its behaviour, modelled from the spec with a marked definition.
-/

namespace ApiYamdb

/-- A registered user (the fields of `reviews.models.User` that the views
touch: primary key, `username`, `email`, `role`, `is_active`, plus a free-form
profile field standing for the remaining editable columns). -/
structure User where
  id : Nat
  username : String
  email : String
  role : String
  is_active : Bool
  bio : String
deriving DecidableEq, Repr

/-- A reviewable work (`reviews.models.Title`); only the primary key matters
to the views. -/
structure Title where
  id : Nat
deriving DecidableEq, Repr

/-- A review (`reviews.models.Review`): authored by a User, scoped to exactly
one Title, carrying a numeric `score`. -/
structure Review where
  id : Nat
  title_id : Nat
  author_id : Nat
  score : Int
deriving DecidableEq, Repr

/-- A comment (`reviews.models.Comment`): authored by a User, scoped to
exactly one Review. -/
structure Comment where
  id : Nat
  review_id : Nat
  author_id : Nat
  text : String
deriving DecidableEq, Repr

/-- The relational store the views query: one table per entity. -/
structure DB where
  users : List User
  titles : List Title
  reviews : List Review
  comments : List Comment
deriving DecidableEq, Repr

/-- The reverse foreign-key manager `title.reviews.all()` /
`Avg('reviews__score')` row set: all reviews whose `title` column is the
given title. -/
def relatedReviews (db : DB) (t : Title) : List Review :=
  db.reviews.filter (fun r => r.title_id = t.id)

/-- SQL `AVG` as the database engine computes it: a running (sum, count)
accumulator over the rows, `NULL` when the count is zero, otherwise the sum
divided by the count (exact rational arithmetic stands in for SQL's numeric
average). -/
def sqlAvg (xs : List ℚ) : Option ℚ :=
  let acc := xs.foldl (fun p x => (p.1 + x, p.2 + 1)) ((0 : ℚ), (0 : Nat))
  if acc.2 = 0 then none else some (acc.1 / (acc.2 : ℚ))

/-- The arithmetic mean as the spec words it: the sum of the values divided
by how many there are, absent when there are none.  (Spec-side definition,
to be compared with the SQL `AVG` the code delegates to.) -/
def arithmeticMean (xs : List ℚ) : Option ℚ :=
  if xs = [] then none else some (xs.sum / (xs.length : ℚ))

/-- `TitleViewSet.queryset = Title.objects.all().annotate(rating=Avg('reviews__score'))`:
every title paired with the SQL average of the scores of its related
reviews. -/
def titleQueryset (db : DB) : List (Title × Option ℚ) :=
  db.titles.map (fun t => (t, sqlAvg ((relatedReviews db t).map (fun r => (r.score : ℚ)))))

lemma sumCount_foldl (xs : List ℚ) (s : ℚ) (c : Nat) :
    xs.foldl (fun p x => (p.1 + x, p.2 + 1)) (s, c) = (s + xs.sum, c + xs.length) := by
  induction xs generalizing s c with
  | nil => simp
  | cons a t ih =>
      simp only [List.foldl_cons, List.sum_cons, List.length_cons, ih, Prod.mk.injEq]
      exact ⟨by ring, by omega⟩

lemma sqlAvg_eq_arithmeticMean (xs : List ℚ) : sqlAvg xs = arithmeticMean xs := by
  unfold sqlAvg arithmeticMean
  rw [sumCount_foldl]
  simp only [zero_add, Nat.zero_add]
  rcases xs with _ | ⟨a, t⟩
  · simp
  · simp [List.length_cons]

/-- C1: For every Title, the rating returned by the title list/detail
operations equals the arithmetic mean of the `score` field over all Reviews
related to that Title, and is absent (`none`) when the Title has no
Reviews. -/
theorem title_rating_is_mean (db : DB) (t : Title) (rating : Option ℚ)
    (h : (t, rating) ∈ titleQueryset db) :
    rating = arithmeticMean ((relatedReviews db t).map (fun r => (r.score : ℚ)))
      ∧ (relatedReviews db t = [] → rating = none) := by
  unfold titleQueryset at h
  rcases List.mem_map.mp h with ⟨t', _, heq⟩
  obtain ⟨rfl, rfl⟩ : t' = t ∧ sqlAvg ((relatedReviews db t').map (fun r => (r.score : ℚ))) = rating := by
    exact ⟨congrArg Prod.fst heq, congrArg Prod.snd heq⟩
  refine ⟨(sqlAvg_eq_arithmeticMean _).symm ▸ rfl, ?_⟩
  intro hempty
  rw [hempty]
  rfl

/-- Concrete instantiation of `title_rating_is_mean`: a database with one
title, two reviews of scores 4 and 7, whose annotated rating is 11/2; and
the empty-review title case. -/
theorem title_rating_is_mean_witness :
    ((⟨1⟩, some ((11 : ℚ) / 2)) ∈
        titleQueryset ⟨[], [⟨1⟩], [⟨1, 1, 9, 4⟩, ⟨2, 1, 8, 7⟩], []⟩)
      ∧ (some ((11 : ℚ) / 2) =
          arithmeticMean ((relatedReviews ⟨[], [⟨1⟩], [⟨1, 1, 9, 4⟩, ⟨2, 1, 8, 7⟩], []⟩ ⟨1⟩).map
            (fun r => (r.score : ℚ)))
        ∧ (relatedReviews ⟨[], [⟨1⟩], [⟨1, 1, 9, 4⟩, ⟨2, 1, 8, 7⟩], []⟩ ⟨1⟩ = [] →
            some ((11 : ℚ) / 2) = none)) := by
  have hmem : ((⟨1⟩ : Title), some ((11 : ℚ) / 2)) ∈
      titleQueryset ⟨[], [⟨1⟩], [⟨1, 1, 9, 4⟩, ⟨2, 1, 8, 7⟩], []⟩ := by
    unfold titleQueryset relatedReviews sqlAvg
    norm_num [List.filter, List.foldl]
  exact ⟨hmem, title_rating_is_mean _ _ _ hmem⟩

/-! ## Token endpoint (`TokenViewSet.post`) -/

/-- The deserialized payload of a token request (`TokenSerializer` fields). -/
structure TokenRequest where
  username : String
  confirmation_code : String
deriving DecidableEq, Repr

/-- The response of `TokenViewSet.post`. `validationError` is the DRF
`ValidationError` raised by `is_valid(raise_exception=True)` (HTTP 400 with
field-level messages); `notFound` is the `Http404` raised by
`get_object_or_404`; `badRequest` is the bare 400 returned when the
confirmation code fails the check; `ok` is the 200 response carrying the
access token string. -/
inductive TokenResponse where
  | validationError (fieldMessages : List (String × String))
  | notFound
  | badRequest
  | ok (token : String)
deriving DecidableEq, Repr

/-- HTTP status code of a token response. -/
def TokenResponse.statusCode : TokenResponse → Nat
  | .validationError _ => 400
  | .notFound => 404
  | .badRequest => 400
  | .ok _ => 200

/-- Whether a token response body carries an access token (the `'token'`
key of the 200 response). -/
def TokenResponse.hasToken : TokenResponse → Bool
  | .ok _ => true
  | _ => false

/-- The environment of external callables the token view uses:
`TokenSerializer.is_valid` (serializer code is outside the views module, so
its verdict and field messages are parameters), Django's
`default_token_generator.check_token` — a pure check of a code string
against the user's stored state, with no side effect — and
`str(RefreshToken.for_user(user).access_token)`. -/
structure TokenEnv where
  serializerValid : TokenRequest → Bool
  serializerErrors : TokenRequest → List (String × String)
  check_token : User → String → Bool
  access_token : User → String

/-- `get_object_or_404(User, username=username)`: the first user whose
`username` column matches, `none` meaning the `Http404` is raised. -/
def getUserOr404 (users : List User) (uname : String) : Option User :=
  users.find? (fun u => u.username = uname)

/-- `TokenViewSet.post`, line by line: validate the payload (raising on
failure), look up the user by username (404 when absent), check the
confirmation code against the stored token (400 with no token on failure),
otherwise issue the access token with a 200.  The handler performs no write:
the database is returned unchanged on every path. -/
def tokenPost (env : TokenEnv) (db : DB) (req : TokenRequest) : DB × TokenResponse :=
  if ¬ env.serializerValid req then
    (db, .validationError (env.serializerErrors req))
  else
    match getUserOr404 db.users req.username with
    | none => (db, .notFound)
    | some user =>
        if ¬ env.check_token user req.confirmation_code then
          (db, .badRequest)
        else
          (db, .ok (env.access_token user))

/-- C2: for every token request that passes validation and carries the
username of an existing user: if the submitted confirmation code validates
against that user's stored token the response is a 200 carrying a bearer
access token, and if it does not validate the response is a 400 carrying no
token. -/
theorem token_post_check (env : TokenEnv) (db : DB) (req : TokenRequest) (user : User)
    (hvalid : env.serializerValid req = true)
    (huser : getUserOr404 db.users req.username = some user) :
    (env.check_token user req.confirmation_code = true →
        (tokenPost env db req).2 = .ok (env.access_token user)
          ∧ (tokenPost env db req).2.statusCode = 200
          ∧ (tokenPost env db req).2.hasToken = true)
      ∧ (env.check_token user req.confirmation_code = false →
        (tokenPost env db req).2 = .badRequest
          ∧ (tokenPost env db req).2.statusCode = 400
          ∧ (tokenPost env db req).2.hasToken = false) := by
  unfold tokenPost
  rw [huser]
  simp only [hvalid, Bool.not_true, Bool.false_eq_true, if_false]
  constructor
  · intro hc
    simp [hc, TokenResponse.statusCode, TokenResponse.hasToken]
  · intro hc
    simp [hc, TokenResponse.statusCode, TokenResponse.hasToken]

/-- Concrete environment for exercising the token endpoint: the stored
token of a user validates exactly the string `"sesame-" ++ username`. -/
def exTokenEnv : TokenEnv where
  serializerValid := fun r => r.username ≠ "" ∧ r.confirmation_code ≠ ""
  serializerErrors := fun _ => [("username", "This field is required.")]
  check_token := fun u c => c = "sesame-" ++ u.username
  access_token := fun u => "jwt-access-" ++ u.username

/-- The user `alice` and a database holding only her. -/
def aliceUser : User := ⟨1, "alice", "alice@mail.test", "user", true, ""⟩

/-- A database holding just the user `alice`. -/
def aliceDB : DB := ⟨[aliceUser], [], [], []⟩

/-- Concrete instantiation of `token_post_check`: `alice` with the right
and with a wrong confirmation code. -/
theorem token_post_check_witness :
    (exTokenEnv.serializerValid ⟨"alice", "sesame-alice"⟩ = true
        ∧ getUserOr404 aliceDB.users "alice" = some aliceUser)
      ∧ (tokenPost exTokenEnv aliceDB ⟨"alice", "sesame-alice"⟩).2
          = .ok "jwt-access-alice"
      ∧ (tokenPost exTokenEnv aliceDB ⟨"alice", "wrong"⟩).2 = .badRequest := by
  refine ⟨⟨by decide, by decide⟩, ?_, ?_⟩
  · exact ((token_post_check exTokenEnv aliceDB ⟨"alice", "sesame-alice"⟩ aliceUser
      (by decide) (by decide)).1 (by decide)).1
  · exact ((token_post_check exTokenEnv aliceDB ⟨"alice", "wrong"⟩ aliceUser
      (by decide) (by decide)).2 (by decide)).1

/-! ## One-time-ness of the confirmation code (C3)

`TokenViewSet.post` performs no write at all: it reads the user, checks the
code and mints a JWT.  Django's `default_token_generator.check_token` is a
pure recomputation from the user's stored columns, and
`RefreshToken.for_user` does not touch those columns, so nothing invalidates
a confirmation code when a token is issued — the same code keeps
validating. -/

/-- C3 counterexample: with `alice`'s valid code `"sesame-alice"`, a first
token request succeeds (200, token issued) and a second, identical request
against the resulting state succeeds again with a fresh access token — the
confirmation code is not one-time. -/
theorem token_replay_counterexample :
    ((tokenPost exTokenEnv aliceDB ⟨"alice", "sesame-alice"⟩).2
        = .ok "jwt-access-alice")
      ∧ ((tokenPost exTokenEnv
            (tokenPost exTokenEnv aliceDB ⟨"alice", "sesame-alice"⟩).1
            ⟨"alice", "sesame-alice"⟩).2
        = .ok "jwt-access-alice") := by
  decide

/-- C3 amended: the confirmation code is NOT one-time.  The token endpoint
never mutates the store (`(tokenPost env db req).1 = db` on every path), so
after a successful token request the identical request succeeds again and
issues an access token. -/
theorem token_replay_succeeds (env : TokenEnv) (db : DB) (req : TokenRequest)
    (t : String) (h : tokenPost env db req = (db, .ok t)) :
    (∀ db' req', (tokenPost env db' req').1 = db')
      ∧ tokenPost env (tokenPost env db req).1 req = (db, .ok t) := by
  have hstate : ∀ db' req', (tokenPost env db' req').1 = db' := by
    intro db' req'
    unfold tokenPost
    rcases hv : env.serializerValid req' with _ | _
    · simp [hv]
    · simp only [hv, Bool.not_true, Bool.false_eq_true, if_false]
      rcases getUserOr404 db'.users req'.username with _ | u
      · rfl
      · dsimp only
        rcases env.check_token u req'.confirmation_code with _ | _ <;> simp
  refine ⟨hstate, ?_⟩
  rw [h]
  exact h

/-- Concrete instantiation of `token_replay_succeeds` at `alice`'s valid
request. -/
theorem token_replay_succeeds_witness :
    (tokenPost exTokenEnv aliceDB ⟨"alice", "sesame-alice"⟩
        = (aliceDB, .ok "jwt-access-alice"))
      ∧ tokenPost exTokenEnv
          (tokenPost exTokenEnv aliceDB ⟨"alice", "sesame-alice"⟩).1
          ⟨"alice", "sesame-alice"⟩
        = (aliceDB, .ok "jwt-access-alice") :=
  ⟨by decide,
   (token_replay_succeeds exTokenEnv aliceDB ⟨"alice", "sesame-alice"⟩
      "jwt-access-alice" (by decide)).2⟩

/-! ## Nested resource scoping (`ReviewViewSet`, `CommentViewSet`) -/

/-- `get_object_or_404(Title, id=self.kwargs.get('title_id'))`: the title
whose primary key matches the URL kwarg (`none` URL kwarg matches nothing),
`Except.error 404` meaning the `Http404` is raised. -/
def get_title (db : DB) (title_id : Option Nat) : Except Nat Title :=
  match db.titles.find? (fun t => some t.id = title_id) with
  | none => .error 404
  | some t => .ok t

/-- `ReviewViewSet.get_queryset`: resolve the parent title from the URL path
(404 when absent), then return its related reviews. -/
def reviewGetQueryset (db : DB) (title_id : Option Nat) : Except Nat (List Review) :=
  match get_title db title_id with
  | .error e => .error e
  | .ok t => .ok (relatedReviews db t)

/-- `get_object_or_404(Review, id=self.kwargs.get('review_id'))` as in
`CommentViewSet.get_review`. -/
def get_review (db : DB) (review_id : Option Nat) : Except Nat Review :=
  match db.reviews.find? (fun r => some r.id = review_id) with
  | none => .error 404
  | some r => .ok r

/-- `CommentViewSet.get_queryset`: `self.get_review().comments.all()` —
resolve the parent review from the URL path, then its related comments. -/
def commentGetQueryset (db : DB) (review_id : Option Nat) : Except Nat (List Comment) :=
  match get_review db review_id with
  | .error e => .error e
  | .ok r => .ok (db.comments.filter (fun c => c.review_id = r.id))

/-- C4: a request to a Review endpoint whose URL `title_id` matches no
existing Title, and a request to a Comment endpoint whose URL `review_id`
matches no existing Review, each yield a not-found (404) response; the
parent is resolved from the URL kwargs of the request at hand. -/
theorem missing_parent_is_not_found (db : DB) (tid rid : Nat)
    (htitle : ∀ t ∈ db.titles, t.id ≠ tid)
    (hreview : ∀ r ∈ db.reviews, r.id ≠ rid) :
    reviewGetQueryset db (some tid) = .error 404
      ∧ commentGetQueryset db (some rid) = .error 404 := by
  constructor
  · unfold reviewGetQueryset get_title
    have : db.titles.find? (fun t => some t.id = some tid) = none := by
      rw [List.find?_eq_none]
      intro t ht
      simpa using htitle t ht
    rw [this]
  · unfold commentGetQueryset get_review
    have : db.reviews.find? (fun r => some r.id = some rid) = none := by
      rw [List.find?_eq_none]
      intro r hr
      simpa using hreview r hr
    rw [this]

/-- Concrete instantiation of `missing_parent_is_not_found`: a store with
one title (id 1) and one review (id 5); title id 2 and review id 9 are
absent and both lookups 404. -/
theorem missing_parent_is_not_found_witness :
    ((∀ t ∈ (⟨[], [⟨1⟩], [⟨5, 1, 1, 7⟩], []⟩ : DB).titles, t.id ≠ 2)
        ∧ ∀ r ∈ (⟨[], [⟨1⟩], [⟨5, 1, 1, 7⟩], []⟩ : DB).reviews, r.id ≠ 9)
      ∧ reviewGetQueryset ⟨[], [⟨1⟩], [⟨5, 1, 1, 7⟩], []⟩ (some 2) = .error 404
      ∧ commentGetQueryset ⟨[], [⟨1⟩], [⟨5, 1, 1, 7⟩], []⟩ (some 9) = .error 404 :=
  ⟨⟨by decide, by decide⟩,
   missing_parent_is_not_found ⟨[], [⟨1⟩], [⟨5, 1, 1, 7⟩], []⟩ 2 9
     (by decide) (by decide)⟩

/-! ## Creation of reviews and comments (C5) -/

/-- `ReviewViewSet.perform_create`: `serializer.save(author=request.user,
title=get_object_or_404(Title, id=kwargs.get('title_id')))` — resolve the
parent title (404 when absent) and insert a review row bound to that title
and to the requesting user. -/
def reviewPerformCreate (db : DB) (request_user : User) (title_id : Option Nat)
    (new_id : Nat) (score : Int) : Except Nat DB :=
  match get_title db title_id with
  | .error e => .error e
  | .ok t =>
      .ok { db with reviews := db.reviews ++ [⟨new_id, t.id, request_user.id, score⟩] }

/-- `CommentViewSet.perform_create`: `serializer.save(author=request.user,
review=self.get_review())` — resolve the parent review (404 when absent)
and insert a comment row bound to that review and to the requesting user. -/
def commentPerformCreate (db : DB) (request_user : User) (review_id : Option Nat)
    (new_id : Nat) (text : String) : Except Nat DB :=
  match get_review db review_id with
  | .error e => .error e
  | .ok r =>
      .ok { db with comments := db.comments ++ [⟨new_id, r.id, request_user.id, text⟩] }

/-- The referential invariant of the store: every review references an
existing title and an existing user as author, and every comment references
an existing review and an existing user as author. -/
def refIntegrity (db : DB) : Prop :=
  (∀ r ∈ db.reviews, (∃ t ∈ db.titles, t.id = r.title_id)
      ∧ (∃ u ∈ db.users, u.id = r.author_id))
    ∧ (∀ c ∈ db.comments, (∃ r ∈ db.reviews, r.id = c.review_id)
      ∧ (∃ u ∈ db.users, u.id = c.author_id))

instance (db : DB) : Decidable (refIntegrity db) := by
  unfold refIntegrity
  infer_instance

lemma get_title_mem (db : DB) (i : Option Nat) (t : Title)
    (h : get_title db i = .ok t) : t ∈ db.titles := by
  unfold get_title at h
  rcases hf : db.titles.find? (fun t => some t.id = i) with _ | t'
  · rw [hf] at h; exact absurd h (by simp)
  · rw [hf] at h
    cases h
    exact List.mem_of_find?_eq_some hf

lemma get_review_mem (db : DB) (i : Option Nat) (r : Review)
    (h : get_review db i = .ok r) : r ∈ db.reviews := by
  unfold get_review at h
  rcases hf : db.reviews.find? (fun r => some r.id = i) with _ | r'
  · rw [hf] at h; exact absurd h (by simp)
  · rw [hf] at h
    cases h
    exact List.mem_of_find?_eq_some hf

/-- C5: review and comment creation preserve referential integrity.  When
the store satisfies the invariant and the requesting user is stored, any
store produced by `reviewPerformCreate` or `commentPerformCreate` satisfies
it again; moreover the freshly inserted row references the parent resolved
from the URL and carries the requesting user as author. -/
theorem perform_create_ref_integrity (db : DB) (u : User)
    (hinv : refIntegrity db) (hu : u ∈ db.users) :
    (∀ tid nid score db', reviewPerformCreate db u (some tid) nid score = .ok db' →
        refIntegrity db'
          ∧ (⟨nid, tid, u.id, score⟩ : Review) ∈ db'.reviews
          ∧ (∃ t ∈ db'.titles, t.id = tid))
      ∧ (∀ rid nid text db', commentPerformCreate db u (some rid) nid text = .ok db' →
        refIntegrity db'
          ∧ (⟨nid, rid, u.id, text⟩ : Comment) ∈ db'.comments
          ∧ (∃ r ∈ db'.reviews, r.id = rid)) := by
  obtain ⟨hrev, hcom⟩ := hinv
  constructor
  · intro tid nid score db' h
    unfold reviewPerformCreate at h
    rcases ht : get_title db (some tid) with e | t
    · rw [ht] at h; exact absurd h (by simp)
    · rw [ht] at h
      cases h
      have htmem : t ∈ db.titles := get_title_mem db (some tid) t ht
      have htid : t.id = tid := by
        unfold get_title at ht
        rcases hf : db.titles.find? (fun t => some t.id = some tid) with _ | t'
        · rw [hf] at ht; exact absurd ht (by simp)
        · rw [hf] at ht
          cases ht
          have := List.find?_some hf
          simpa using this
      subst htid
      refine ⟨⟨?_, ?_⟩, ?_, ⟨t, htmem, rfl⟩⟩
      · intro r hr
        rcases List.mem_append.mp hr with hold | hnew
        · exact hrev r hold
        · have : r = ⟨nid, t.id, u.id, score⟩ := by simpa using hnew
          subst this
          exact ⟨⟨t, htmem, rfl⟩, ⟨u, hu, rfl⟩⟩
      · intro c hc
        obtain ⟨⟨r, hrmem, hrid⟩, hauth⟩ := hcom c hc
        exact ⟨⟨r, List.mem_append.mpr (Or.inl hrmem), hrid⟩, hauth⟩
      · exact List.mem_append.mpr (Or.inr (by simp))
  · intro rid nid text db' h
    unfold commentPerformCreate at h
    rcases hr : get_review db (some rid) with e | r
    · rw [hr] at h; exact absurd h (by simp)
    · rw [hr] at h
      cases h
      have hrmem : r ∈ db.reviews := get_review_mem db (some rid) r hr
      have hrid : r.id = rid := by
        unfold get_review at hr
        rcases hf : db.reviews.find? (fun r => some r.id = some rid) with _ | r'
        · rw [hf] at hr; exact absurd hr (by simp)
        · rw [hf] at hr
          cases hr
          have := List.find?_some hf
          simpa using this
      subst hrid
      refine ⟨⟨?_, ?_⟩, ?_, ⟨r, hrmem, rfl⟩⟩
      · intro rv hrv
        exact hrev rv hrv
      · intro c hc
        rcases List.mem_append.mp hc with hold | hnew
        · exact hcom c hold
        · have : c = ⟨nid, r.id, u.id, text⟩ := by simpa using hnew
          subst this
          exact ⟨⟨r, hrmem, rfl⟩, ⟨u, hu, rfl⟩⟩
      · exact List.mem_append.mpr (Or.inr (by simp))

/-- Concrete instantiation of `perform_create_ref_integrity`: inserting a
review for title 1 by `alice` into a store holding `alice`, title 1 and one
review, and a comment for review 5 likewise. -/
theorem perform_create_ref_integrity_witness :
    (refIntegrity ⟨[aliceUser], [⟨1⟩], [⟨5, 1, 1, 7⟩], []⟩
        ∧ aliceUser ∈ (⟨[aliceUser], [⟨1⟩], [⟨5, 1, 1, 7⟩], []⟩ : DB).users)
      ∧ (∀ db', reviewPerformCreate ⟨[aliceUser], [⟨1⟩], [⟨5, 1, 1, 7⟩], []⟩
            aliceUser (some 1) 6 9 = .ok db' →
          refIntegrity db' ∧ (⟨6, 1, aliceUser.id, 9⟩ : Review) ∈ db'.reviews
            ∧ (∃ t ∈ db'.titles, t.id = 1))
      ∧ (∀ db', commentPerformCreate ⟨[aliceUser], [⟨1⟩], [⟨5, 1, 1, 7⟩], []⟩
            aliceUser (some 5) 3 "nice" = .ok db' →
          refIntegrity db' ∧ (⟨3, 5, aliceUser.id, "nice"⟩ : Comment) ∈ db'.comments
            ∧ (∃ r ∈ db'.reviews, r.id = 5)) := by
  have h := perform_create_ref_integrity ⟨[aliceUser], [⟨1⟩], [⟨5, 1, 1, 7⟩], []⟩
    aliceUser (by decide) (by decide)
  exact ⟨⟨by decide, by decide⟩,
    fun db' hdb => h.1 1 6 9 db' hdb,
    fun db' hdb => h.2 5 3 "nice" db' hdb⟩

/-! ## Signup (`SignUpVeiwSet.post`, `send_confirmation_code`) -/

/-- The deserialized payload of a signup request (`SignUpSerializer`
fields). -/
structure SignUpRequest where
  username : String
  email : String
deriving DecidableEq, Repr

/-- An outgoing mail, as `django.core.mail.send_mail(subject, message,
from_email, recipient_list)` receives it. -/
structure Email where
  subject : String
  message : String
  from_email : String
  recipient_list : List String
deriving DecidableEq, Repr

/-- `SEND_CODE_MESSAGE`, the mail subject constant of the views module. -/
def SEND_CODE_MESSAGE : String := "Код подтверждения"

/-- The response of `SignUpVeiwSet.post`: the DRF validation error raised
by `is_valid(raise_exception=True)`, or the 200 response echoing the
serializer data. -/
inductive SignupResponse where
  | validationError (fieldMessages : List (String × String))
  | ok (username : String) (email : String)
deriving DecidableEq, Repr

/-- HTTP status code of a signup response. -/
def SignupResponse.statusCode : SignupResponse → Nat
  | .validationError _ => 400
  | .ok _ _ => 200

/-- External callables of the signup view: the serializer's verdict and
field messages, Django's `default_token_generator.make_token` (a pure
function of the user's stored columns) and the `EMAIL_YAMDB` sender address
from the settings module. -/
structure SignupEnv where
  serializerValid : SignUpRequest → Bool
  serializerErrors : SignUpRequest → List (String × String)
  make_token : User → String
  EMAIL_YAMDB : String

/-- Python truthiness of a Django model instance: `django.db.models.Model`
defines neither `__bool__` nor `__len__`, so every instance is truthy. -/
def pyTruthy (_ : User) : Bool := true

/-- Modelled from the spec: `SignUpSerializer.save` (the serializer module
is not in the source tree).  Per the spec's signup step — "client submits
username+email" and a user results — it returns the existing user with the
submitted username, or inserts and returns a fresh active user with the
submitted username and email. -/
def signupSave (db : DB) (req : SignUpRequest) : User × DB :=
  match db.users.find? (fun u => u.username = req.username) with
  | some u => (u, db)
  | none =>
      let fresh : User :=
        ⟨db.users.foldl (fun m u => max m u.id) 0 + 1,
         req.username, req.email, "user", true, ""⟩
      (fresh, { db with users := db.users ++ [fresh] })

/-- `user.delete()`: remove the row from the user table. -/
def deleteUser (db : DB) (u : User) : DB :=
  { db with users := db.users.filter (fun v => v ≠ u) }

/-- `send_confirmation_code(user)`: make a token for the user and mail it,
from `EMAIL_YAMDB`, to `[user.email]`, with subject `SEND_CODE_MESSAGE`. -/
def send_confirmation_code (env : SignupEnv) (user : User) : Email :=
  ⟨SEND_CODE_MESSAGE, env.make_token user, env.EMAIL_YAMDB, [user.email]⟩

/-- `SignUpVeiwSet.post`, line by line: validate (raising on failure), save
the user, send the confirmation code, then the dead-code guard `if not user
and user.is_active: user.delete()`, then the 200 response with the
serializer data.  Returns the new store, the list of mails sent and the
response. -/
def signupPost (env : SignupEnv) (db : DB) (req : SignUpRequest) :
    DB × List Email × SignupResponse :=
  if ¬ env.serializerValid req then
    (db, [], .validationError (env.serializerErrors req))
  else
    let saved := signupSave db req
    let user := saved.1
    let db1 := saved.2
    let outbox := [send_confirmation_code env user]
    let db2 := if (! pyTruthy user) && user.is_active then deleteUser db1 user else db1
    (db2, outbox, .ok req.username req.email)

/-- C6: for every signup request passing validation, a confirmation code is
generated for the saved user and exactly one email carrying that code is
sent to that user's email address, and the response is a 200. -/
theorem signup_sends_code (env : SignupEnv) (db : DB) (req : SignUpRequest)
    (hvalid : env.serializerValid req = true) :
    (signupPost env db req).2.1
        = [⟨SEND_CODE_MESSAGE, env.make_token (signupSave db req).1,
            env.EMAIL_YAMDB, [(signupSave db req).1.email]⟩]
      ∧ (signupPost env db req).2.2 = .ok req.username req.email
      ∧ (signupPost env db req).2.2.statusCode = 200 := by
  unfold signupPost
  simp [hvalid, send_confirmation_code, SignupResponse.statusCode]

/-- Concrete environment for the signup view. -/
def exSignupEnv : SignupEnv where
  serializerValid := fun r => r.username ≠ "" ∧ r.username ≠ "me" ∧ r.email ≠ ""
  serializerErrors := fun _ => [("email", "This field is required.")]
  make_token := fun u => "code-" ++ u.username
  EMAIL_YAMDB := "noreply@yamdb.test"

/-- Concrete instantiation of `signup_sends_code`: signing `bob` up against
the store holding only `alice` mails `code-bob` to `bob@mail.test` and
answers 200. -/
theorem signup_sends_code_witness :
    exSignupEnv.serializerValid ⟨"bob", "bob@mail.test"⟩ = true
      ∧ (signupPost exSignupEnv aliceDB ⟨"bob", "bob@mail.test"⟩).2.1
          = [⟨SEND_CODE_MESSAGE, exSignupEnv.make_token
                (signupSave aliceDB ⟨"bob", "bob@mail.test"⟩).1,
              exSignupEnv.EMAIL_YAMDB,
              [(signupSave aliceDB ⟨"bob", "bob@mail.test"⟩).1.email]⟩]
      ∧ (signupPost exSignupEnv aliceDB ⟨"bob", "bob@mail.test"⟩).2.2
          = .ok "bob" "bob@mail.test"
      ∧ (signupPost exSignupEnv aliceDB ⟨"bob", "bob@mail.test"⟩).2.2.statusCode = 200 :=
  ⟨by decide, signup_sends_code exSignupEnv aliceDB ⟨"bob", "bob@mail.test"⟩ (by decide)⟩

lemma signupSave_mem (db : DB) (req : SignUpRequest) :
    (signupSave db req).1 ∈ (signupSave db req).2.users := by
  unfold signupSave
  split
  · exact List.mem_of_find?_eq_some (by assumption)
  · simp

/-- C9: the delete branch of the signup view is dead code.  The guard `not
user and user.is_active` is false for every user object (`serializer.save()`
returns a model instance, and model instances are truthy), so for every
valid request the store after signup is exactly the store after the save —
no user is ever deleted by the signup operation, and the saved user is
present afterwards. -/
theorem signup_never_deletes (env : SignupEnv) (db : DB) (req : SignUpRequest)
    (hvalid : env.serializerValid req = true) :
    ((! pyTruthy (signupSave db req).1) && (signupSave db req).1.is_active) = false
      ∧ (signupPost env db req).1 = (signupSave db req).2
      ∧ (signupSave db req).1 ∈ (signupPost env db req).1.users := by
  have hguard : ((! pyTruthy (signupSave db req).1)
      && (signupSave db req).1.is_active) = false := by
    simp [pyTruthy]
  refine ⟨hguard, ?_, ?_⟩
  · unfold signupPost
    simp [hvalid, hguard]
  · have hmem := signupSave_mem db req
    unfold signupPost
    simpa [hvalid, hguard] using hmem

/-- Concrete instantiation of `signup_never_deletes` at `bob`'s signup. -/
theorem signup_never_deletes_witness :
    exSignupEnv.serializerValid ⟨"bob", "bob@mail.test"⟩ = true
      ∧ ((! pyTruthy (signupSave aliceDB ⟨"bob", "bob@mail.test"⟩).1)
            && (signupSave aliceDB ⟨"bob", "bob@mail.test"⟩).1.is_active) = false
      ∧ (signupPost exSignupEnv aliceDB ⟨"bob", "bob@mail.test"⟩).1
          = (signupSave aliceDB ⟨"bob", "bob@mail.test"⟩).2
      ∧ (signupSave aliceDB ⟨"bob", "bob@mail.test"⟩).1
          ∈ (signupPost exSignupEnv aliceDB ⟨"bob", "bob@mail.test"⟩).1.users :=
  ⟨by decide, signup_never_deletes exSignupEnv aliceDB ⟨"bob", "bob@mail.test"⟩ (by decide)⟩

/-- C8: a signup or token request whose payload fails serializer validation
yields the raised validation error (a 400 with the serializer's field-level
messages), sends no email, creates no user, and issues no token — the
store is untouched on both endpoints. -/
theorem invalid_payload_short_circuits
    (senv : SignupEnv) (tenv : TokenEnv) (db : DB)
    (sreq : SignUpRequest) (treq : TokenRequest)
    (hs : senv.serializerValid sreq = false)
    (ht : tenv.serializerValid treq = false) :
    signupPost senv db sreq
        = (db, [], .validationError (senv.serializerErrors sreq))
      ∧ (signupPost senv db sreq).2.2.statusCode = 400
      ∧ tokenPost tenv db treq = (db, .validationError (tenv.serializerErrors treq))
      ∧ (tokenPost tenv db treq).2.statusCode = 400
      ∧ (tokenPost tenv db treq).2.hasToken = false := by
  have h1 : signupPost senv db sreq
      = (db, [], .validationError (senv.serializerErrors sreq)) := by
    unfold signupPost
    simp [hs]
  have h2 : tokenPost tenv db treq
      = (db, .validationError (tenv.serializerErrors treq)) := by
    unfold tokenPost
    simp [ht]
  refine ⟨h1, ?_, h2, ?_, ?_⟩ <;>
    simp [h1, h2, SignupResponse.statusCode, TokenResponse.statusCode,
      TokenResponse.hasToken]

/-- Concrete instantiation of `invalid_payload_short_circuits`: the empty
signup payload and the empty token payload both fail validation and are
rejected without side effects. -/
theorem invalid_payload_short_circuits_witness :
    (exSignupEnv.serializerValid ⟨"", ""⟩ = false
        ∧ exTokenEnv.serializerValid ⟨"", ""⟩ = false)
      ∧ signupPost exSignupEnv aliceDB ⟨"", ""⟩
          = (aliceDB, [], .validationError (exSignupEnv.serializerErrors ⟨"", ""⟩))
      ∧ tokenPost exTokenEnv aliceDB ⟨"", ""⟩
          = (aliceDB, .validationError (exTokenEnv.serializerErrors ⟨"", ""⟩))
      ∧ (tokenPost exTokenEnv aliceDB ⟨"", ""⟩).2.hasToken = false := by
  have h := invalid_payload_short_circuits exSignupEnv exTokenEnv aliceDB
    ⟨"", ""⟩ ⟨"", ""⟩ (by decide) (by decide)
  exact ⟨⟨by decide, by decide⟩, h.1, h.2.2.1, h.2.2.2.2⟩

/-! ## The `/me` endpoint (`UserViewSet.me`) -/

/-- The deserialized partial payload of a PATCH to `/me` (`UserSerializer`
with `partial=True`): each editable field is present or absent. -/
structure UserPatch where
  username : Option String
  email : Option String
  role : Option String
  bio : Option String
deriving DecidableEq, Repr

/-- The response of `UserViewSet.me`. -/
inductive MeResponse where
  | validationError (fieldMessages : List (String × String))
  | ok (data : User)
deriving DecidableEq, Repr

/-- External verdict of `UserSerializer.is_valid` on a partial payload (the
serializer module is outside the views module). -/
structure MeEnv where
  patchValid : UserPatch → Bool
  patchErrors : UserPatch → List (String × String)

/-- DRF `serializer.save(role=instance.role, partial=True)` on an update:
the keyword arguments are merged over the validated data, so each submitted
field is written to the instance except `role`, which is forced to the
keyword value (the extra non-model key `partial` does not reach a column). -/
def serializer_save_me (inst : User) (data : UserPatch) (role_kwarg : String) : User :=
  { inst with
    username := data.username.getD inst.username,
    email := data.email.getD inst.email,
    bio := data.bio.getD inst.bio,
    role := role_kwarg }

/-- `UserViewSet.me`: on GET, render the requesting user; on PATCH,
validate the partial payload (raising on failure), save it with
`role=instance.role`, store the updated row and render it. -/
def userMe (env : MeEnv) (db : DB) (requester : User) (method : String)
    (data : UserPatch) : DB × MeResponse :=
  if method = "GET" then
    (db, .ok requester)
  else if ¬ env.patchValid data then
    (db, .validationError (env.patchErrors data))
  else
    ({ db with users := db.users.map (fun u =>
        if u.id = requester.id then serializer_save_me requester data requester.role else u) },
     .ok (serializer_save_me requester data requester.role))

/-- C7: a valid PATCH to `/me` leaves the requesting user's `role`
unchanged — even when the payload supplies a `role` value — while the other
submitted fields are updated from the payload; rows of other users are
untouched. -/
theorem me_patch_preserves_role (env : MeEnv) (db : DB) (requester : User)
    (data : UserPatch) (hvalid : env.patchValid data = true) :
    (userMe env db requester "PATCH" data).2
        = .ok (serializer_save_me requester data requester.role)
      ∧ (serializer_save_me requester data requester.role).role = requester.role
      ∧ (serializer_save_me requester data requester.role).username
          = data.username.getD requester.username
      ∧ (serializer_save_me requester data requester.role).email
          = data.email.getD requester.email
      ∧ (serializer_save_me requester data requester.role).bio
          = data.bio.getD requester.bio
      ∧ ∀ u ∈ db.users, u.id ≠ requester.id →
          u ∈ (userMe env db requester "PATCH" data).1.users := by
  unfold userMe
  rw [if_neg (by decide)]
  simp only [hvalid, Bool.not_true, Bool.false_eq_true, if_false]
  refine ⟨rfl, rfl, rfl, rfl, rfl, ?_⟩
  intro u hu hne
  have hmm := List.mem_map_of_mem (fun v =>
    if v.id = requester.id then serializer_save_me requester data requester.role else v) hu
  simpa [hne] using hmm

/-- Concrete instantiation of `me_patch_preserves_role`: `alice` (role
`"user"`) PATCHes `/me` submitting `role = "admin"` and a new bio; the
stored role stays `"user"` and the bio is updated. -/
theorem me_patch_preserves_role_witness :
    (⟨fun _ => true, fun _ => []⟩ : MeEnv).patchValid
        ⟨none, none, some "admin", some "hi"⟩ = true
      ∧ (userMe ⟨fun _ => true, fun _ => []⟩ aliceDB aliceUser "PATCH"
            ⟨none, none, some "admin", some "hi"⟩).2
          = .ok (serializer_save_me aliceUser ⟨none, none, some "admin", some "hi"⟩
              aliceUser.role)
      ∧ (serializer_save_me aliceUser ⟨none, none, some "admin", some "hi"⟩
            aliceUser.role).role = "user"
      ∧ (serializer_save_me aliceUser ⟨none, none, some "admin", some "hi"⟩
            aliceUser.role).bio = "hi" := by
  have h := me_patch_preserves_role ⟨fun _ => true, fun _ => []⟩ aliceDB aliceUser
    ⟨none, none, some "admin", some "hi"⟩ rfl
  exact ⟨rfl, h.1, h.2.1, h.2.2.2.2.1⟩

/-! ## `TitleViewSet.get_serializer_class` (C10) -/

/-- Whether the first list is a prefix of the second (character-wise). -/
def beginsWith : List Char → List Char → Bool
  | [], _ => true
  | _ :: _, [] => false
  | a :: as, b :: bs => a = b && beginsWith as bs

/-- Scan for the needle at every suffix of the haystack. -/
def substrSearch (n : List Char) : List Char → Bool
  | [] => beginsWith n []
  | c :: t => beginsWith n (c :: t) || substrSearch n t

/-- Python's `in` operator on two strings: substring membership
(`needle in hay`). -/
def pyInStr (needle hay : String) : Bool :=
  substrSearch needle.toList hay.toList

/-- The two serializer classes the title viewset chooses between. -/
inductive SerializerClass where
  | TitlesSerializer
  | TitleCreateSerializer
deriving DecidableEq, Repr

/-- `TitleViewSet.get_serializer_class`: the test is
`not self.request.method in ('GET')`, and `('GET')` is the plain string
`'GET'` — not a one-element tuple — so the test is substring membership of
the method name in the string `"GET"`. -/
def get_serializer_class (method : String) : SerializerClass :=
  if ! pyInStr method "GET" then .TitleCreateSerializer else .TitlesSerializer

/-- The HTTP request method names. -/
def httpMethods : List String :=
  ["GET", "POST", "PUT", "PATCH", "DELETE", "HEAD", "OPTIONS", "TRACE", "CONNECT"]

/-- C10: over the HTTP method names, the substring-membership test
`method in 'GET'` coincides with equality to `"GET"`, so GET selects
`TitlesSerializer` and every other method selects
`TitleCreateSerializer`. -/
theorem serializer_class_substring_eq (m : String) (hm : m ∈ httpMethods) :
    (pyInStr m "GET" = true ↔ m = "GET")
      ∧ get_serializer_class m
          = (if m = "GET" then .TitlesSerializer else .TitleCreateSerializer) := by
  fin_cases hm <;> exact ⟨by decide, by decide⟩

/-- Concrete instantiation of `serializer_class_substring_eq` at the
methods `"GET"` and `"DELETE"`. -/
theorem serializer_class_substring_eq_witness :
    ("GET" ∈ httpMethods ∧ "DELETE" ∈ httpMethods)
      ∧ get_serializer_class "GET" = .TitlesSerializer
      ∧ get_serializer_class "DELETE" = .TitleCreateSerializer := by
  have h1 := serializer_class_substring_eq "GET" (by decide)
  have h2 := serializer_class_substring_eq "DELETE" (by decide)
  refine ⟨⟨by decide, by decide⟩, ?_, ?_⟩
  · simpa using h1.2
  · simpa using h2.2

end ApiYamdb
